import Mathlib

/-!
A verification development for the interview-research pipeline
(`ai_processor.py`, `database.py`, `api.py`, `scraper.py`).

Python strings are modelled as `List Char`; Python runtime values as `PyVal`
(dictionaries are insertion-ordered association lists, as in CPython).
String helpers (`strip`, `lower`, `split`, `splitlines`, `isdigit`,
substring tests) are modelled over the ASCII character classes actually used
by the program; the full Unicode classes differ only on non-ASCII input,
which no property here depends on.

`json.loads` is modelled by a fuel-based recursive-descent parser over the
JSON grammar (objects, arrays, strings with escapes, booleans, null, and
integer numbers; non-integer numbers are not modelled, and no property here
evaluates the parser on one).  The fuel `2 * length + 2` bounds recursion
depth; every recursive call follows consumption of input, so the bound is
never hit on inputs the Python parser accepts.

External effects are made explicit: the MongoDB collections are lists of
documents threaded through each operation, `datetime.utcnow()` is a `now`
parameter, and each generative-model call is an `Except Unit (List Char)`
parameter (the model either raised, or returned text).
-/

/-- A Python runtime value, as used by this program: `None`, booleans,
integers, strings, lists, (ordered) dictionaries, and `datetime` values. -/
inductive PyVal where
  | pnone
  | pbool (b : Bool)
  | pint (n : Int)
  | pstr (s : List Char)
  | plist (xs : List PyVal)
  | pdict (kvs : List (List Char × PyVal))
  | ptime (t : Nat)

/-- A Python dictionary with string keys: an insertion-ordered association
list with unique keys (CPython `dict` semantics). -/
abbrev PyDict := List (List Char × PyVal)

mutual
/-- Python `==` on `PyVal` (structural equality, as for these value shapes). -/
def PyVal.beq : PyVal → PyVal → Bool
  | .pnone, .pnone => true
  | .pbool a, .pbool b => a == b
  | .pint a, .pint b => a == b
  | .pstr a, .pstr b => a == b
  | .plist a, .plist b => PyVal.beqL a b
  | .pdict a, .pdict b => PyVal.beqD a b
  | .ptime a, .ptime b => a == b
  | _, _ => false
def PyVal.beqL : List PyVal → List PyVal → Bool
  | [], [] => true
  | x :: xs, y :: ys => PyVal.beq x y && PyVal.beqL xs ys
  | _, _ => false
def PyVal.beqD : PyDict → PyDict → Bool
  | [], [] => true
  | (k1, v1) :: xs, (k2, v2) :: ys => k1 == k2 && PyVal.beq v1 v2 && PyVal.beqD xs ys
  | _, _ => false
end

/-- `d[k]` lookup (first, hence only, occurrence of the key). -/
def dictGet (d : PyDict) (k : List Char) : Option PyVal :=
  match d with
  | [] => none
  | (k', v) :: t => if k' = k then some v else dictGet t k

/-- Python `d.get(k, default)`. -/
def dictGetD (d : PyDict) (k : List Char) (dflt : PyVal) : PyVal :=
  (dictGet d k).getD dflt

/-- Python `d[k] = v`: replace in place if the key exists, else append
(insertion order preserved). -/
def pySetKey : PyDict → List Char → PyVal → PyDict
  | [], k, v => [(k, v)]
  | (k', v') :: t, k, v => if k' = k then (k', v) :: t else (k', v') :: pySetKey t k v

/-- Python `d.pop(k, None)`: a dictionary without the key `k`. -/
def pyDelKey : PyDict → List Char → PyDict
  | [], _ => []
  | (k', v') :: t, k => if k' = k then t else (k', v') :: pyDelKey t k

/-- Python `dict(pairs)` / incremental JSON-object construction: later
occurrences of a key overwrite earlier ones in place. -/
def pyDictOfPairs (ps : PyDict) : PyDict :=
  ps.foldl (fun d kv => pySetKey d kv.1 kv.2) []

/-- Python `a.update(b)` for dictionaries. -/
def pyUpdate (a b : PyDict) : PyDict :=
  b.foldl (fun d kv => pySetKey d kv.1 kv.2) a

/-- The ASCII characters Python `str.strip()` removes (`\x0b` and `\x0c`
included; Unicode spaces are outside the model). -/
def pyWsp (c : Char) : Bool :=
  c == ' ' || c == '\t' || c == '\n' || c == '\r' || c == '\x0b' || c == '\x0c'

/-- Python `s.strip()`. -/
def pyStrip (s : List Char) : List Char :=
  ((s.dropWhile pyWsp).reverse.dropWhile pyWsp).reverse

/-- Python `s.strip(cut)`: remove characters of the set `cut` from both ends. -/
def pyStripChars (cut : List Char) (s : List Char) : List Char :=
  ((s.dropWhile (cut.contains ·)).reverse.dropWhile (cut.contains ·)).reverse

/-- Python `s.lower()` (ASCII case mapping). -/
def pyLower (s : List Char) : List Char := s.map Char.toLower

/-- Python `needle in hay` for strings (the empty needle is in everything). -/
def pyInStr (needle : List Char) : List Char → Bool
  | [] => needle.isEmpty
  | c :: t => needle.isPrefixOf (c :: t) || pyInStr needle t

/-- Python `s.split("\n\n")` (keeps empty pieces). -/
def pySplitPara : List Char → List Char → List (List Char)
  | acc, '\n' :: '\n' :: t => acc.reverse :: pySplitPara [] t
  | acc, c :: t => pySplitPara (c :: acc) t
  | acc, [] => [acc.reverse]

/-- Python `s.split("\n")` (keeps empty pieces). -/
def pySplitNl : List Char → List Char → List (List Char)
  | acc, '\n' :: t => acc.reverse :: pySplitNl [] t
  | acc, c :: t => pySplitNl (c :: acc) t
  | acc, [] => [acc.reverse]

/-- Python `s.splitlines()` over the ASCII line boundaries `\r\n`, `\n`, `\r`
(no trailing empty piece for a trailing newline). -/
def pySplitlines : List Char → List Char → List (List Char)
  | acc, '\r' :: '\n' :: t => acc.reverse :: pySplitlines [] t
  | acc, '\n' :: t => acc.reverse :: pySplitlines [] t
  | acc, '\r' :: t => acc.reverse :: pySplitlines [] t
  | acc, c :: t => pySplitlines (c :: acc) t
  | acc, [] => if acc.isEmpty then [] else [acc.reverse]

/-- Python `str(v)` as used on the values interpolated by this program
(strings pass through; other shapes get a printable rendering). -/
def pyToStr : PyVal → List Char
  | .pstr s => s
  | .pint n => (toString n).data
  | .pbool true => "True".data
  | .pbool false => "False".data
  | .pnone => "None".data
  | .ptime t => "time:".data ++ (toString t).data
  | .plist _ => "[...]".data
  | .pdict _ => "dict".data

/-! ## `json.loads` (`_parse_ai_response`, tier 1; `generate_custom_questions`) -/

/-- JSON insignificant whitespace. -/
def jWs (c : Char) : Bool := c == ' ' || c == '\t' || c == '\n' || c == '\r'

/-- Drop leading JSON whitespace. -/
def jSkip (cs : List Char) : List Char := cs.dropWhile jWs

/-- Value of one hexadecimal digit (code points 48-57, 97-102, 65-70). -/
def jHexVal (c : Char) : Option Nat :=
  let n := c.toNat
  if 48 ≤ n && n ≤ 57 then some (n - 48)
  else if 97 ≤ n && n ≤ 102 then some (n - 97 + 10)
  else if 65 ≤ n && n ≤ 70 then some (n - 65 + 10)
  else none

/-- The two-character JSON escapes. -/
def jEscChar : Char → Option Char
  | '"' => some '"'
  | '\\' => some '\\'
  | '/' => some '/'
  | 'b' => some '\x08'
  | 'f' => some '\x0c'
  | 'n' => some '\n'
  | 'r' => some '\r'
  | 't' => some '\t'
  | _ => none

/-- The body of a JSON string after the opening quote, strict mode: raw
control characters are rejected, as in Python's default `json.loads`.
(Surrogate-pair recombination for `\u` escapes is outside the model.) -/
def jStr (acc : List Char) : List Char → Option (List Char × List Char)
  | [] => none
  | ch :: r =>
    if ch = '"' then some (acc.reverse, r)
    else if ch = '\\' then
      match r with
      | 'u' :: a :: b :: c :: d :: r2 =>
        match jHexVal a, jHexVal b, jHexVal c, jHexVal d with
        | some va, some vb, some vc, some vd =>
          jStr (Char.ofNat (((va * 16 + vb) * 16 + vc) * 16 + vd) :: acc) r2
        | _, _, _, _ => none
      | e :: r2 =>
        match jEscChar e with
        | some c2 => jStr (c2 :: acc) r2
        | none => none
      | [] => none
    else if ch.toNat < 32 then none
    else jStr (ch :: acc) r

/-- A maximal run of decimal digits and the rest. -/
def jDigits : List Char → List Char × List Char
  | c :: r => if c.isDigit then let (ds, r') := jDigits r; (c :: ds, r') else ([], c :: r)
  | [] => ([], [])

/-- Numeric value of a digit run (digit code points start at 48). -/
def jDigitsVal (ds : List Char) : Nat :=
  ds.foldl (fun acc c => 10 * acc + (c.toNat - 48)) 0

/-- A JSON integer: optional minus sign, then digits (fractions and exponents
are outside the model; an input using them fails to parse here). -/
def jInt : List Char → Option (Int × List Char)
  | '-' :: r =>
    let (ds, r') := jDigits r
    if ds.isEmpty then none else some (-(jDigitsVal ds : Int), r')
  | cs =>
    let (ds, r') := jDigits cs
    if ds.isEmpty then none else some ((jDigitsVal ds : Int), r')

mutual
/-- One JSON value.  The fuel only bounds recursion depth; each recursive
call follows consumption of at least one character.  `jItems` parses the
elements of a non-empty array, `jPairs` the members of a non-empty object. -/
def jVal : Nat → List Char → Option (PyVal × List Char)
  | 0, _ => none
  | n + 1, cs =>
    match jSkip cs with
    | [] => none
    | c :: r =>
      if c = '"' then
        match jStr [] r with
        | some (s, r') => some (.pstr s, r')
        | none => none
      else if c = '[' then
        match jSkip r with
        | ']' :: r' => some (.plist [], r')
        | r' => jItems n r' []
      else if c = '\x7b' then
        match jSkip r with
        | '\x7d' :: r' => some (.pdict [], r')
        | r' => jPairs n r' []
      else if c = 't' then
        match r with | 'r' :: 'u' :: 'e' :: r' => some (.pbool true, r') | _ => none
      else if c = 'f' then
        match r with | 'a' :: 'l' :: 's' :: 'e' :: r' => some (.pbool false, r') | _ => none
      else if c = 'n' then
        match r with | 'u' :: 'l' :: 'l' :: r' => some (.pnone, r') | _ => none
      else
        match jInt (c :: r) with
        | some (v, r') => some (.pint v, r')
        | none => none
def jItems : Nat → List Char → List PyVal → Option (PyVal × List Char)
  | 0, _, _ => none
  | n + 1, cs, acc =>
    match jVal n cs with
    | none => none
    | some (v, r) =>
      match jSkip r with
      | ',' :: r' => jItems n r' (acc ++ [v])
      | ']' :: r' => some (.plist (acc ++ [v]), r')
      | _ => none
def jPairs : Nat → List Char → PyDict → Option (PyVal × List Char)
  | 0, _, _ => none
  | n + 1, cs, acc =>
    match jSkip cs with
    | '"' :: r =>
      match jStr [] r with
      | none => none
      | some (k, r1) =>
        match jSkip r1 with
        | ':' :: r2 =>
          match jVal n r2 with
          | none => none
          | some (v, r3) =>
            match jSkip r3 with
            | ',' :: r4 => jPairs n r4 (acc ++ [(k, v)])
            | '\x7d' :: r4 => some (.pdict (pyDictOfPairs (acc ++ [(k, v)])), r4)
            | _ => none
        | _ => none
    | _ => none
end

/-- Python `json.loads`: one document, whole input consumed. -/
def jLoads (cs : List Char) : Option PyVal :=
  match jVal (2 * cs.length + 2) cs with
  | some (v, r) => if (jSkip r).isEmpty then some v else none
  | none => none

/-! ## Response Normalizer: `AIProcessor._parse_ai_response` -/

/-- The six keys of the guide dictionary, in construction order. -/
def sixKeys : List (List Char) :=
  ["overview".data, "technical_areas".data, "questions".data,
   "strategy".data, "timeline".data, "tips".data]

/-- The keys routed to list fields (`['technical_areas', 'questions', 'tips']`). -/
def listFieldKeys : List (List Char) :=
  ["technical_areas".data, "questions".data, "tips".data]

/-- The initial `parsed` dictionary of the heuristic tier. -/
def initParsed : PyDict :=
  [("overview".data, .pstr []),
   ("technical_areas".data, .plist []),
   ("questions".data, .plist []),
   ("strategy".data, .pstr []),
   ("timeline".data, .pstr []),
   ("tips".data, .plist [])]

/-- `line.strip() and (line.strip().startswith('-') or line.strip()[0].isdigit())`. -/
def lineQualifies (line : List Char) : Bool :=
  match pyStrip line with
  | [] => false
  | c :: _ => c == '-' || c.isDigit

/-- The character set of `line.strip('-• 1234567890.')`. -/
def bulletCut : List Char := "-• 1234567890.".data

/-- `line.strip('-• 1234567890.').strip()`. -/
def lineItem (line : List Char) : List Char := pyStrip (pyStripChars bulletCut line)

/-- The list items extracted from one section:
`[line.strip('-• 1234567890.').strip() for line in section.split('\n') if ...]`. -/
def sectionItems (sec : List Char) : List (List Char) :=
  (pySplitNl [] sec).filterMap
    (fun line => if lineQualifies line then some (lineItem line) else none)

/-- The `if/elif` chain choosing the active target field from the lowercased
section text (first matching keyword wins; no match keeps the current one). -/
def routeSection (cur : List Char) (sec : List Char) : List Char :=
  let lower := pyLower sec
  if pyInStr "technical areas".data lower then "technical_areas".data
  else if pyInStr "questions".data lower then "questions".data
  else if pyInStr "strategy".data lower then "strategy".data
  else if pyInStr "timeline".data lower then "timeline".data
  else if pyInStr "tips".data lower then "tips".data
  else cur

/-- One iteration of the section loop: route, then either extend the list
field with the section's items or overwrite the scalar field with the
stripped section.  (The non-list fallthrough in the first branch is
unreachable: the list fields of `parsed` always hold lists.) -/
def stepSection (st : PyDict × List Char) (sec : List Char) : PyDict × List Char :=
  let cur := routeSection st.2 sec
  let parsed := st.1
  if listFieldKeys.contains cur then
    match dictGet parsed cur with
    | some (.plist xs) =>
      (pySetKey parsed cur (.plist (xs ++ (sectionItems sec).map .pstr)), cur)
    | _ => (parsed, cur)
  else
    (pySetKey parsed cur (.pstr (pyStrip sec)), cur)

/-- Tier 2 of `_parse_ai_response`: blank-line section segmentation. -/
def heuristicParse (response : List Char) : PyDict :=
  ((pySplitPara [] response).foldl stepSection (initParsed, "overview".data)).1

/-- `AIProcessor._parse_ai_response`.  Tier 1 parses the whole input as JSON
and reads the six keys out of a JSON object (any other JSON document makes
`data.get` raise `AttributeError`, which the `except` sends to tier 2). -/
def parse_ai_response (response : List Char) : PyDict :=
  match jLoads response with
  | some (.pdict data) =>
    [("overview".data, dictGetD data "overview".data (.pstr [])),
     ("technical_areas".data, dictGetD data "technical_areas".data (.plist [])),
     ("questions".data, dictGetD data "questions".data (.plist [])),
     ("strategy".data, dictGetD data "strategy".data (.pstr [])),
     ("timeline".data, dictGetD data "timeline".data (.pstr [])),
     ("tips".data, dictGetD data "tips".data (.plist []))]
  | _ => heuristicParse response

/-! ## AI processor: the three model-backed calls and their fallbacks.
Each generative-model invocation is an explicit `Except Unit (List Char)`
argument: `.error` is the call raising, `.ok text` the returned text. -/

/-- `AIProcessor._fallback_synthesis`. -/
def fallback_synthesis (scraped_data : PyDict) : PyDict :=
  [("overview".data, .pstr ("Interview preparation guide for ".data ++
      pyToStr (dictGetD scraped_data "company_name".data (.pstr "Unknown Company".data)))),
   ("technical_areas".data, dictGetD scraped_data "technical_topics".data (.plist [])),
   ("questions".data, dictGetD scraped_data "behavioral_questions".data (.plist [])),
   ("strategy".data, .pstr "Focus on technical skills and behavioral preparation".data),
   ("timeline".data, .pstr "2-4 weeks recommended preparation time".data),
   ("tips".data, dictGetD scraped_data "tips".data (.plist []))]

/-- `AIProcessor.synthesize_interview_data`. -/
def synthesize_interview_data (modelOut : Except Unit (List Char))
    (scraped_data : PyDict) : PyDict :=
  match modelOut with
  | .ok text => parse_ai_response text
  | .error _ => fallback_synthesis scraped_data

/-- `AIProcessor._fallback_questions`. -/
def fallback_questions (company_name role : List Char) : List PyVal :=
  [.pstr ("What interests you about working at ".data ++ company_name ++ "?".data),
   .pstr ("How would you approach a typical ".data ++ role ++ " challenge?".data),
   .pstr "Describe your experience with relevant technologies".data,
   .pstr "How do you handle working in a team environment?".data,
   .pstr "What\x27s your approach to learning new technologies?".data]

/-- `AIProcessor.generate_custom_questions`.  On returned text, try JSON; on
JSON failure split into lines filtered of blanks and stripped of `"-• "`;
a non-list result becomes `[]`.  The fallback runs only when the model call
itself raises. -/
def generate_custom_questions (modelOut : Except Unit (List Char))
    (company_name role experience_level : List Char) : List PyVal :=
  match modelOut with
  | .error _ => fallback_questions company_name role
  | .ok text =>
    let questions : PyVal :=
      match jLoads text with
      | some v => v
      | none => .plist ((pySplitlines [] text).filterMap
          (fun q => if (pyStrip q).isEmpty then none
                    else some (.pstr (pyStripChars "-• ".data q))))
    match questions with
    | .plist xs => xs
    | _ => []

/-- `AIProcessor._fallback_study_plan`. -/
def fallback_study_plan (days : Int) : PyDict :=
  [("study_plan".data, .pstr ("Structured ".data ++ (toString days).data ++
      "-day preparation plan with daily goals".data)),
   ("duration".data, .pint days)]

/-- `AIProcessor.create_study_plan` (the interview data only feeds the
prompt, whose effect is already inside `modelOut`). -/
def create_study_plan (modelOut : Except Unit (List Char))
    (days_to_prepare : Int) : PyDict :=
  match modelOut with
  | .ok text => [("study_plan".data, .pstr text), ("duration".data, .pint days_to_prepare)]
  | .error _ => fallback_study_plan days_to_prepare

/-! ## Cache/Store Gateway: `DatabaseManager` over an explicit MongoDB model.
A collection is a list of documents in insertion order; `update_one` with
`upsert=True` applies `$set` to the first match, or, with no match, inserts
the query's equality fields with the update applied on top (MongoDB upsert
semantics).  Operations that raise return `Except.error`; driver failures
during the guarded read are injected through `readFault`. -/

structure DBState where
  connected : Bool
  company_interviews : List PyDict
  reports : List PyDict

/-- A document matches a query iff every query field is present and equal. -/
def matchesQuery (q : PyDict) (d : PyDict) : Bool :=
  q.all (fun kv =>
    match dictGet d kv.1 with
    | some v => PyVal.beq v kv.2
    | none => false)

/-- Rewrite the first document satisfying `p` with `f`; report whether one
was found. -/
def updateFirstMatch (p : PyDict → Bool) (f : PyDict → PyDict) :
    List PyDict → List PyDict × Bool
  | [] => ([], false)
  | d :: ds =>
    if p d then (f d :: ds, true)
    else
      let (ds', found) := updateFirstMatch p f ds
      (d :: ds', found)

/-- MongoDB `$set`. -/
def applySet (d upd : PyDict) : PyDict :=
  upd.foldl (fun acc kv => pySetKey acc kv.1 kv.2) d

/-- `collection.update_one(query, set, upsert=True)`. -/
def updateOneUpsert (coll : List PyDict) (q : PyDict) (upd : PyDict) : List PyDict :=
  let (coll', found) := updateFirstMatch (matchesQuery q) (fun d => applySet d upd) coll
  if found then coll'
  else coll' ++ [applySet (pyDictOfPairs q) upd]

/-- `DatabaseManager.save_company_data`.  Mutates its argument (timestamps),
builds the lowercased query, upserts; a missing `company_name` key or a
non-string key field raises inside the `try`, and the `except` re-raises. -/
def save_company_data (st : DBState) (now : Nat) (company_data : PyDict) :
    Except (List Char) (DBState × PyDict) :=
  if !st.connected then .error "Database not connected".data
  else
    let cd := pySetKey (pySetKey company_data "created_at".data (.ptime now))
      "updated_at".data (.ptime now)
    match dictGet cd "company_name".data with
    | some (.pstr cname) =>
      match dictGetD cd "role".data (.pstr "general".data) with
      | .pstr role =>
        let query : PyDict :=
          [("company_name".data, .pstr (pyLower cname)),
           ("role".data, .pstr (pyLower role))]
        .ok ({ st with company_interviews := updateOneUpsert st.company_interviews query cd },
             cd)
      | _ => .error "AttributeError: lower".data
    | some _ => .error "AttributeError: lower".data
    | none => .error "KeyError: company_name".data

/-- `DatabaseManager.get_company_data`.  When connected, any driver failure
inside the `try` (injected here as `readFault`) is caught and turned into
`None`; otherwise `find_one` runs with the lowercased query, skipping the
`role` clause for a `None` or empty role (Python truthiness), and the
`_id` field is popped off a hit. -/
def get_company_data (st : DBState) (readFault : Bool) (company_name : List Char)
    (role : Option (List Char)) : Except (List Char) (Option PyDict) :=
  if !st.connected then .error "Database not connected".data
  else if readFault then .ok none
  else
    let query : PyDict :=
      ("company_name".data, PyVal.pstr (pyLower company_name)) ::
        (match role with
         | some r => if r.isEmpty then [] else [("role".data, PyVal.pstr (pyLower r))]
         | none => [])
    .ok ((st.company_interviews.find? (matchesQuery query)).map
      (fun d => pyDelKey d "_id".data))

/-- `DatabaseManager.save_generated_report`: timestamp, then `insert_one`
(append). -/
def save_generated_report (st : DBState) (now : Nat) (report_data : PyDict) :
    Except (List Char) (DBState × PyDict) :=
  if !st.connected then .error "Database not connected".data
  else
    let rd := pySetKey report_data "created_at".data (.ptime now)
    .ok ({ st with reports := st.reports ++ [rd] }, rd)

/-- MongoDB `distinct`: the field's values with duplicates removed, first
occurrence first. -/
def pyDistinct (xs : List PyVal) : List PyVal :=
  xs.foldl (fun acc v => if acc.any (PyVal.beq v) then acc else acc ++ [v]) []

/-- `DatabaseManager.get_all_companies`.  Note the disconnected branch
returns `[]` instead of raising. -/
def get_all_companies (st : DBState) : Except (List Char) (List PyVal) :=
  if !st.connected then .ok []
  else .ok (pyDistinct (st.company_interviews.filterMap
    (fun d => dictGet d "company_name".data)))

/-! ## Source fetchers (`scraper.py`): deterministic mock data. -/

/-- One row of `_generate_mock_glassdoor_data`'s per-company table. -/
structure GlassdoorBase where
  process_steps : List PyVal
  technical_topics : List PyVal
  difficulty_level : List Char

def googleBase : GlassdoorBase :=
  ⟨[.pstr "Phone/Video Screen with Recruiter".data,
    .pstr "Technical Phone Interview".data,
    .pstr "Onsite Interviews (4-5 rounds)".data,
    .pstr "Hiring Committee Review".data],
   [.pstr "Algorithms and Data Structures".data,
    .pstr "System Design".data,
    .pstr "Coding in preferred language".data,
    .pstr "Problem-solving approach".data],
   "Very Hard".data⟩

def amazonBase : GlassdoorBase :=
  ⟨[.pstr "Online Assessment".data,
    .pstr "Phone Interview".data,
    .pstr "Virtual Onsite (3-4 rounds)".data,
    .pstr "Bar Raiser Round".data],
   [.pstr "Leadership Principles".data,
    .pstr "Data Structures".data,
    .pstr "System Design".data,
    .pstr "Behavioral Questions".data],
   "Hard".data⟩

def microsoftBase : GlassdoorBase :=
  ⟨[.pstr "Recruiter Screen".data,
    .pstr "Technical Phone Screen".data,
    .pstr "Onsite Interviews (4-5 rounds)".data,
    .pstr "Final Review".data],
   [.pstr "Coding Problems".data,
    .pstr "System Design".data,
    .pstr "Technical Discussion".data,
    .pstr "Culture Fit".data],
   "Hard".data⟩

def defaultBase : GlassdoorBase :=
  ⟨[.pstr "Initial Screening".data,
    .pstr "Technical Interview".data,
    .pstr "Final Round".data,
    .pstr "Offer Discussion".data],
   [.pstr "Programming Fundamentals".data,
    .pstr "Problem Solving".data,
    .pstr "Technical Knowledge".data,
    .pstr "Communication Skills".data],
   "Medium".data⟩

/-- `company_specific_data.get(company_name.lower(), default_data)`. -/
def baseDataFor (company_lower : List Char) : GlassdoorBase :=
  if company_lower = "google".data then googleBase
  else if company_lower = "amazon".data then amazonBase
  else if company_lower = "microsoft".data then microsoftBase
  else defaultBase

/-- `InterviewScraper._generate_mock_glassdoor_data`. -/
def generate_mock_glassdoor_data (company_name role : List Char) : PyDict :=
  let base := baseDataFor (pyLower company_name)
  [("company_name".data, .pstr company_name),
   ("role".data, .pstr (if role.isEmpty then "Software Engineer".data else role)),
   ("process_steps".data, .plist base.process_steps),
   ("technical_topics".data, .plist base.technical_topics),
   ("behavioral_questions".data, .plist
     [.pstr "Tell me about yourself".data,
      .pstr ("Why do you want to work at ".data ++ company_name ++ "?".data),
      .pstr "Describe a challenging project you worked on".data,
      .pstr "How do you handle tight deadlines?".data,
      .pstr "Where do you see yourself in 5 years?".data]),
   ("tips".data, .plist
     [.pstr ("Research ".data ++ company_name ++ "\x27s culture and values".data),
      .pstr "Practice coding problems on whiteboard".data,
      .pstr "Prepare STAR method examples".data,
      .pstr "Ask thoughtful questions about the role".data,
      .pstr "Be ready to discuss your projects in detail".data]),
   ("difficulty_level".data, .pstr base.difficulty_level),
   ("source_urls".data, .plist
     [.pstr "https://glassdoor.com".data, .pstr "https://leetcode.com".data])]

/-- `InterviewScraper.scrape_glassdoor_interviews` (returns the mock data). -/
def scrape_glassdoor_interviews (company_name role : List Char) : PyDict :=
  generate_mock_glassdoor_data company_name role

/-- `InterviewScraper.scrape_leetcode_company`. -/
def scrape_leetcode_company (company_name : List Char) : PyDict :=
  [("technical_questions".data, .plist
     [.pstr ("Two Sum - ".data ++ company_name ++ " favorite".data),
      .pstr ("System Design - ".data ++ company_name ++ " specific".data),
      .pstr ("Dynamic Programming - ".data ++ company_name ++ " style".data)]),
   ("difficulty_distribution".data, .pdict
     [("easy".data, .pint 30), ("medium".data, .pint 50), ("hard".data, .pint 20)]),
   ("frequency".data, .pstr "high".data)]

/-- `InterviewScraper._scrape_geeksforgeeks`. -/
def scrape_geeksforgeeks (company_name : List Char) : PyDict :=
  [("interview_experiences".data, .plist
     [.pstr (company_name ++ " Software Engineer Interview Experience".data),
      .pstr (company_name ++ " Internship Interview Questions".data)]),
   ("technical_prep".data, .plist
     [.pstr "Data Structures and Algorithms".data,
      .pstr "System Design".data,
      .pstr "Object-Oriented Programming".data]),
   ("tips".data, .plist
     [.pstr "Practice coding problems daily".data,
      .pstr "Understand company culture".data,
      .pstr "Prepare behavioral questions".data])]

/-- `InterviewScraper._scrape_interviewbit`. -/
def scrape_interviewbit (company_name : List Char) : PyDict :=
  [("common_questions".data, .plist
     [.pstr ("Tell me about yourself - ".data ++ company_name ++ " version".data),
      .pstr ("Why ".data ++ company_name ++ "?".data),
      .pstr "Technical problem solving approach".data]),
   ("preparation_timeline".data, .pstr "2-3 months".data),
   ("success_rate".data, .pstr "65%".data)]

/-- `InterviewScraper.scrape_general_sources`. -/
def scrape_general_sources (company_name role : List Char) : PyDict :=
  let sources_data : PyDict := []
  let gfg := scrape_geeksforgeeks company_name
  let sources_data :=
    if gfg.isEmpty then sources_data
    else pySetKey sources_data "geeksforgeeks".data (.pdict gfg)
  let ib := scrape_interviewbit company_name
  if ib.isEmpty then sources_data
  else pySetKey sources_data "interviewbit".data (.pdict ib)

/-! ## `api.py`: the research pipeline. -/

/-- `scraped_data['sources'][inner] = True`-style nested update (`'sources'`
always holds a dictionary here). -/
def setNested (d : PyDict) (outer inner : List Char) (v : PyVal) : PyDict :=
  match dictGet d outer with
  | some (.pdict sub) => pySetKey d outer (.pdict (pySetKey sub inner v))
  | _ => d

/-- `api.scrape_company_data`: seed record, then merge each source that
returned a non-empty dictionary and flag it under `'sources'`. -/
def scrape_company_data (company_name role : List Char) : PyDict :=
  let sd0 : PyDict :=
    [("company_name".data, .pstr company_name),
     ("role".data, .pstr role),
     ("sources".data, .pdict [])]
  let g := scrape_glassdoor_interviews company_name role
  let sd1 :=
    if g.isEmpty then sd0
    else setNested (pyUpdate sd0 g) "sources".data "glassdoor".data (.pbool true)
  let l := scrape_leetcode_company company_name
  let sd2 :=
    if l.isEmpty then sd1
    else setNested (pySetKey sd1 "leetcode_data".data (.pdict l))
      "sources".data "leetcode".data (.pbool true)
  let gen := scrape_general_sources company_name role
  if gen.isEmpty then sd2
  else setNested (pySetKey sd2 "general_sources".data (.pdict gen))
    "sources".data "general".data (.pbool true)

/-- An `api.ResearchRequest` (defaults already applied by pydantic). -/
structure ResearchRequest where
  company_name : List Char
  role : List Char
  experience_level : List Char
  days_to_prepare : Int

/-- A task handed to FastAPI's `background_tasks.add_task`. -/
inductive BgTask where
  | saveCompany (d : PyDict)
  | saveReport (d : PyDict)

/-- The outcomes of the three independent generative-model invocations of
one request. -/
structure AIOutcomes where
  synth : Except Unit (List Char)
  questions : Except Unit (List Char)
  plan : Except Unit (List Char)

/-- The tail of `api.research_company` after the cache decision: the three
AI calls, the response record, and the scheduled report append. -/
def assemble_response (req : ResearchRequest) (ai : AIOutcomes)
    (interview_data : PyDict) (bg : List BgTask) (now : Nat) : PyDict × List BgTask :=
  let ai_synthesis := synthesize_interview_data ai.synth interview_data
  let custom_questions :=
    generate_custom_questions ai.questions req.company_name req.role req.experience_level
  let study_plan := create_study_plan ai.plan req.days_to_prepare
  let response_data : PyDict :=
    [("company_name".data, .pstr req.company_name),
     ("role".data, .pstr req.role),
     ("interview_data".data, .pdict interview_data),
     ("ai_synthesis".data, .pdict ai_synthesis),
     ("custom_questions".data, .plist custom_questions),
     ("study_plan".data, .pdict study_plan),
     ("generated_at".data, .ptime now)]
  (response_data, bg ++ [BgTask.saveReport response_data])

/-- `api.research_company`: cached read (`None` and `{}` are both falsy,
hence misses), scrape-and-schedule-save on a miss, then the common tail.
A read error becomes the HTTP 500 (`Except.error`). -/
def research_company (st : DBState) (readFault : Bool) (req : ResearchRequest)
    (ai : AIOutcomes) (now : Nat) : Except (List Char) (PyDict × List BgTask) :=
  match get_company_data st readFault req.company_name (some req.role) with
  | .error e => .error ("Research failed: ".data ++ e)
  | .ok cached =>
    let isMiss := match cached with | none => true | some d => d.isEmpty
    if isMiss then
      let interview_data := scrape_company_data req.company_name req.role
      .ok (assemble_response req ai interview_data [BgTask.saveCompany interview_data] now)
    else
      .ok (assemble_response req ai (cached.getD []) [] now)

/-! ## The SynthesizedGuide shape and the strict structured format. -/

/-- A well-formed SynthesizedGuide: all six fields present, with the types
the data model fixes (§3 of the specification). -/
structure SynthesizedGuide where
  overview : List Char
  technical_areas : List (List Char)
  questions : List (List Char)
  strategy : List Char
  timeline : List Char
  tips : List (List Char)

/-- The Python dictionary a `SynthesizedGuide` denotes. -/
def guideDict (g : SynthesizedGuide) : PyDict :=
  [("overview".data, .pstr g.overview),
   ("technical_areas".data, .plist (g.technical_areas.map .pstr)),
   ("questions".data, .plist (g.questions.map .pstr)),
   ("strategy".data, .pstr g.strategy),
   ("timeline".data, .pstr g.timeline),
   ("tips".data, .plist (g.tips.map .pstr))]

/-- Lower-case hexadecimal digit character. -/
def jHexDigit (n : Nat) : Char :=
  if n < 10 then Char.ofNat ('0'.toNat + n) else Char.ofNat ('a'.toNat + n - 10)

/-- JSON escape of one character: the mandatory escapes, short escapes for
the common control characters, `\u00XX` for the remaining ones. -/
def jEsc (c : Char) : List Char :=
  if c = '"' then ['\\', '"']
  else if c = '\\' then ['\\', '\\']
  else if c = '\n' then ['\\', 'n']
  else if c = '\r' then ['\\', 'r']
  else if c = '\t' then ['\\', 't']
  else if c.toNat < 32 then
    ['\\', 'u', '0', '0', jHexDigit (c.toNat / 16), jHexDigit (c.toNat % 16)]
  else [c]

/-- A JSON string literal for `s`. -/
def jQuote (s : List Char) : List Char := '"' :: (s.flatMap jEsc ++ ['"'])

/-- After the first element of a serialized array: `,` before each further
element, then the closing bracket. -/
def jArrSep : List (List Char) → List Char
  | [] => [']']
  | s :: t => ',' :: (jQuote s ++ jArrSep t)

/-- A serialized array of strings. -/
def jArrPrint : List (List Char) → List Char
  | [] => ['[', ']']
  | s :: t => '[' :: (jQuote s ++ jArrSep t)

/-- A guide field's value in the strict structured format: a string or an
array of strings. -/
inductive JField where
  | fstr (s : List Char)
  | farr (l : List (List Char))

/-- Serialization of one field value. -/
def jFieldPrint : JField → List Char
  | .fstr s => jQuote s
  | .farr l => jArrPrint l

/-- The `PyVal` a serialized field parses back to. -/
def jFieldVal : JField → PyVal
  | .fstr s => .pstr s
  | .farr l => .plist (l.map .pstr)

/-- Parser fuel sufficient for one serialized field value. -/
def jFieldFuel : JField → Nat
  | .fstr _ => 1
  | .farr l => l.length + 3

/-- Parser fuel sufficient for a serialized member list. -/
def jMembersFuel : List (List Char × JField) → Nat
  | [] => 0
  | (_, f) :: t => jFieldFuel f + 1 + jMembersFuel t

/-- After the first member of a serialized object: `,` before each further
`"key":value` member, then the closing brace. -/
def jMembersSep : List (List Char × JField) → List Char
  | [] => ['\x7d']
  | (k, f) :: t => ',' :: (jQuote k ++ ':' :: (jFieldPrint f ++ jMembersSep t))

/-- A serialized object of string/array-of-string members. -/
def jObjPrint : List (List Char × JField) → List Char
  | [] => ['\x7b', '\x7d']
  | (k, f) :: t => '\x7b' :: (jQuote k ++ ':' :: (jFieldPrint f ++ jMembersSep t))

/-- The six members of a guide, in the fixed field order. -/
def guideFields (g : SynthesizedGuide) : List (List Char × JField) :=
  [("overview".data, .fstr g.overview),
   ("technical_areas".data, .farr g.technical_areas),
   ("questions".data, .farr g.questions),
   ("strategy".data, .fstr g.strategy),
   ("timeline".data, .fstr g.timeline),
   ("tips".data, .farr g.tips)]

/-- Modelled from the spec: the repository defines no serializer; §8's
round-trip property refers to "the strict structured format", which is what
tier 1 of `_parse_ai_response` parses — a JSON object with the six guide
keys.  `serializeGuide` emits exactly that (standard JSON string escaping,
no insignificant whitespace). -/
def serializeGuide (g : SynthesizedGuide) : List Char := jObjPrint (guideFields g)

/-! ## Typing predicates for the normalizer's output (claim C1). -/

/-- The key list of a dictionary. -/
def keysOf (d : PyDict) : List (List Char) := d.map (fun kv => kv.1)

/-- Is the value a Python string? -/
def isStrVal : PyVal → Bool
  | .pstr _ => true
  | _ => false

/-- Is the value a list of strings? -/
def isStrList : PyVal → Bool
  | .plist xs => xs.all isStrVal
  | _ => false

/-- Is the (present) value a string? -/
def optIsStr : Option PyVal → Bool
  | some v => isStrVal v
  | none => false

/-- Is the (present) value a list of strings? -/
def optIsStrList : Option PyVal → Bool
  | some v => isStrList v
  | none => false

/-- All six guide fields present and correctly typed: `overview`,
`strategy`, `timeline` strings; `technical_areas`, `questions`, `tips`
lists of strings. -/
def guideWellTyped (d : PyDict) : Prop :=
  optIsStr (dictGet d "overview".data) = true ∧
  optIsStrList (dictGet d "technical_areas".data) = true ∧
  optIsStrList (dictGet d "questions".data) = true ∧
  optIsStr (dictGet d "strategy".data) = true ∧
  optIsStr (dictGet d "timeline".data) = true ∧
  optIsStrList (dictGet d "tips".data) = true

/-- A guide field of a JSON object is absent or has its specified type. -/
def okFieldType (data : PyDict) (k : List Char) (isList : Bool) : Bool :=
  match dictGet data k with
  | none => true
  | some v => if isList then isStrList v else isStrVal v

/-- The input either is not a JSON object, or is one whose six guide keys,
where present, already have the specified types. -/
def jsonTierTyped (response : List Char) : Prop :=
  match jLoads response with
  | some (.pdict data) =>
    okFieldType data "overview".data false = true ∧
    okFieldType data "technical_areas".data true = true ∧
    okFieldType data "questions".data true = true ∧
    okFieldType data "strategy".data false = true ∧
    okFieldType data "timeline".data false = true ∧
    okFieldType data "tips".data true = true
  | _ => True

/-! ## The list-item extraction as claim C6 words it. -/

/-- C6's qualification test: after trimming, the line starts with `-`, `•`,
or a digit. -/
def lineQualifiesClaim (line : List Char) : Bool :=
  match pyStrip line with
  | [] => false
  | c :: _ => c == '-' || c == '•' || c.isDigit

/-- C6's transformation: the *leading* bullet/digit/punctuation characters
stripped (nothing removed from the right-hand end). -/
def lineItemClaim (line : List Char) : List Char :=
  line.dropWhile (bulletCut.contains ·)

/-- The extraction claim C6 describes. -/
def sectionItemsClaim (sec : List Char) : List (List Char) :=
  (pySplitNl [] sec).filterMap
    (fun line => if lineQualifiesClaim line then some (lineItemClaim line) else none)

/-! ## Helper lemmas about the dictionary model. -/

theorem dictGet_pySetKey_self (d : PyDict) (k : List Char) (v : PyVal) :
    dictGet (pySetKey d k v) k = some v := by
  induction d with
  | nil => simp [pySetKey, dictGet]
  | cons kv t ih =>
    obtain ⟨k', v'⟩ := kv
    by_cases h : k' = k
    · simp [pySetKey, dictGet, h]
    · simp [pySetKey, dictGet, h, ih]

theorem dictGet_pySetKey_other (d : PyDict) (k : List Char) (v : PyVal)
    (k' : List Char) (h : k' ≠ k) : dictGet (pySetKey d k v) k' = dictGet d k' := by
  induction d with
  | nil => simp [pySetKey, dictGet, Ne.symm h]
  | cons kv t ih =>
    obtain ⟨k0, v0⟩ := kv
    by_cases h0 : k0 = k
    · subst h0
      simp [pySetKey, dictGet, Ne.symm h]
    · simp [pySetKey, dictGet, h0, ih]

theorem keysOf_pySetKey_mem (d : PyDict) (k : List Char) (v : PyVal)
    (h : k ∈ keysOf d) : keysOf (pySetKey d k v) = keysOf d := by
  induction d with
  | nil => simp [keysOf] at h
  | cons kv t ih =>
    obtain ⟨k0, v0⟩ := kv
    by_cases h0 : k0 = k
    · simp [pySetKey, h0, keysOf]
    · have hc : k ∈ (k0, v0).1 :: keysOf t := h
      have hm : k ∈ keysOf t := by
        cases List.mem_cons.mp hc with
        | inl h1 => exact absurd h1.symm h0
        | inr h1 => exact h1
      have hrw : pySetKey ((k0, v0) :: t) k v = (k0, v0) :: pySetKey t k v := by
        simp [pySetKey, h0]
      rw [hrw]
      show (k0, v0).1 :: keysOf (pySetKey t k v) = (k0, v0).1 :: keysOf t
      rw [ih hm]

theorem filterMap_guard {α β : Type} (p : α → Bool) (f : α → β) (l : List α) :
    l.filterMap (fun x => if p x then some (f x) else none) = (l.filter p).map f := by
  induction l with
  | nil => simp
  | cons hd t ih =>
    by_cases h : p hd <;> simp [List.filterMap_cons, h, ih]

/-- The record a successful `save_company_data` hands back is the input with
the two timestamps set. -/
theorem save_ok_snd (st : DBState) (now : Nat) (d : PyDict) (st' : DBState)
    (d' : PyDict) (h : save_company_data st now d = .ok (st', d')) :
    d' = pySetKey (pySetKey d "created_at".data (.ptime now))
      "updated_at".data (.ptime now) := by
  unfold save_company_data at h
  split at h
  · simp at h
  · dsimp only at h
    split at h
    · split at h
      · obtain ⟨-, h2⟩ := Prod.mk.injEq .. ▸ Except.ok.inj h
        exact h2.symm
      · simp at h
    · simp at h
    · simp at h

/-! ## Claim C2 (store lookup keys are case-normalized end to end). -/

/-- C2, evaluated at the repository's own `test_db.py` input: after
`save_company_data` of a record with `company_name = 'TestCompany'`,
`role = 'Software Engineer'`, the lookup `get_company_data('TestCompany',
'Software Engineer')` misses.  The save queries by the lowercased key but
`$set`s the original-cased `company_name`/`role` back into the stored
document, so the lowercased lookup never matches it — contradicting the
claim (and the expectation of `test_db.py`). -/
theorem c2_store_case_bug :
    (match save_company_data ⟨true, [], []⟩ 0
        [("company_name".data, .pstr "TestCompany".data),
         ("role".data, .pstr "Software Engineer".data)] with
     | .ok (st1, _) =>
       get_company_data st1 false "TestCompany".data (some "Software Engineer".data)
         = .ok none
     | .error _ => False) := by rfl

/-! ## Claim C5 (upsert idempotent by key). -/

/-- C5 is false on the code: saving the same `'Google'/'SWE'` record twice
leaves TWO documents in the collection.  The first save stores the document
with its original casing (`$set` wins over the lowercased query seed on
insert); the second save's lowercased query then matches nothing and
upserts a second document. -/
theorem c5_upsert_not_idempotent :
    (match save_company_data ⟨true, [], []⟩ 0
        [("company_name".data, .pstr "Google".data), ("role".data, .pstr "SWE".data)] with
     | .ok (st1, _) =>
       match save_company_data st1 0
           [("company_name".data, .pstr "Google".data), ("role".data, .pstr "SWE".data)] with
       | .ok (st2, _) => st2.company_interviews.length = 2
       | .error _ => False
     | .error _ => False) := by rfl

/-! ## Claim C3 (disconnected store operations raise). -/

/-- C3's counterexample: while disconnected — even with data on hand —
`get_all_companies` silently returns the empty list instead of raising a
connectivity error. -/
theorem c3_counterexample :
    get_all_companies ⟨false, [[("company_name".data, .pstr "acme".data)]], []⟩
      = .ok [] := by rfl

/-- C3 amended: `save_company_data`, `get_company_data` and
`save_generated_report` do raise the connectivity error when disconnected,
but `get_all_companies` silently returns `[]`. -/
theorem c3_amended (st : DBState) (h : st.connected = false) (now : Nat)
    (d rep : PyDict) (c : List Char) (role : Option (List Char)) (fault : Bool) :
    save_company_data st now d = .error "Database not connected".data ∧
    get_company_data st fault c role = .error "Database not connected".data ∧
    save_generated_report st now rep = .error "Database not connected".data ∧
    get_all_companies st = .ok [] := by
  refine ⟨?_, ?_, ?_, ?_⟩ <;>
    simp [save_company_data, get_company_data, save_generated_report,
      get_all_companies, h]

theorem c3_amended_witness :
    (⟨false, [], []⟩ : DBState).connected = false ∧
    save_company_data ⟨false, [], []⟩ 0 [] = .error "Database not connected".data ∧
    get_company_data ⟨false, [], []⟩ false "acme".data none
      = .error "Database not connected".data ∧
    save_generated_report ⟨false, [], []⟩ 0 [] = .error "Database not connected".data ∧
    get_all_companies (⟨false, [], []⟩ : DBState) = .ok [] :=
  ⟨rfl, c3_amended ⟨false, [], []⟩ rfl 0 [] [] "acme".data none false⟩

/-! ## Claim C8 (records never mutated by the gateway). -/

/-- C8's counterexample: a record without `created_at` handed to
`save_company_data` comes back with `created_at` set — the call mutates the
caller's record. -/
theorem c8_counterexample :
    dictGet [("company_name".data, PyVal.pstr "acme".data)] "created_at".data = none ∧
    (match save_company_data ⟨true, [], []⟩ 7
        [("company_name".data, .pstr "acme".data)] with
     | .ok (_, d') => dictGet d' "created_at".data = some (.ptime 7)
     | .error _ => False) :=
  ⟨rfl, by rfl⟩

/-- C8 amended: a successful `save_company_data` mutates the record exactly
by setting `created_at` and `updated_at` to the current time; every other
key's value is left unchanged. -/
theorem c8_amended (st : DBState) (now : Nat) (d : PyDict) (st' : DBState)
    (d' : PyDict) (h : save_company_data st now d = .ok (st', d')) :
    dictGet d' "created_at".data = some (.ptime now) ∧
    dictGet d' "updated_at".data = some (.ptime now) ∧
    ∀ k, k ≠ "created_at".data → k ≠ "updated_at".data → dictGet d' k = dictGet d k := by
  rw [save_ok_snd st now d st' d' h]
  refine ⟨?_, ?_, ?_⟩
  · rw [dictGet_pySetKey_other _ _ _ _ (by decide), dictGet_pySetKey_self]
  · rw [dictGet_pySetKey_self]
  · intro k h1 h2
    rw [dictGet_pySetKey_other _ _ _ _ h2, dictGet_pySetKey_other _ _ _ _ h1]

theorem c8_amended_witness :
    save_company_data ⟨true, [], []⟩ 7 [("company_name".data, .pstr "acme".data)]
      = .ok (⟨true,
          [[("company_name".data, .pstr "acme".data), ("role".data, .pstr "general".data),
            ("created_at".data, .ptime 7), ("updated_at".data, .ptime 7)]], []⟩,
          [("company_name".data, .pstr "acme".data),
           ("created_at".data, .ptime 7), ("updated_at".data, .ptime 7)]) ∧
    dictGet [("company_name".data, PyVal.pstr "acme".data),
             ("created_at".data, .ptime 7), ("updated_at".data, .ptime 7)]
        "company_name".data
      = dictGet [("company_name".data, PyVal.pstr "acme".data)] "company_name".data :=
  ⟨by rfl,
   (c8_amended ⟨true, [], []⟩ 7 [("company_name".data, .pstr "acme".data)] _ _
      (by rfl)).2.2 "company_name".data (by decide) (by decide)⟩
/-! ## Claim C4 (fallbacks for the three model-backed calls). -/

/-- C4's counterexample: when the model call *returns* unusable content
(here, the valid-JSON non-list `'\x7b\x7d'`), `generate_custom_questions`
returns the empty list — not its deterministic, non-empty fallback. -/
theorem c4_counterexample :
    generate_custom_questions (Except.ok "\x7b\x7d".data) "Google".data "SWE".data
        "Mid-level".data = [] ∧
    fallback_questions "Google".data "SWE".data ≠ [] := by
  constructor
  · rfl
  · show ((PyVal.pstr _) :: _) ≠ []
    exact List.cons_ne_nil _ _

/-- C4 amended: when the model call *raises*, each of the three calls
returns its deterministic fallback — a complete synthesis record with a
non-empty overview, a non-empty all-string question list, a study plan with
the requested duration and non-empty text — and no error propagates; when
the model returns unusable content without raising, the custom-question
result may instead be the empty list. -/
theorem c4_amended (scraped : PyDict) (c r exp : List Char) (days : Int) (e : Unit) :
    synthesize_interview_data (.error e) scraped = fallback_synthesis scraped ∧
    (match dictGet (fallback_synthesis scraped) "overview".data with
     | some (.pstr s) => s ≠ []
     | _ => False) ∧
    generate_custom_questions (.error e) c r exp = fallback_questions c r ∧
    (fallback_questions c r).length = 5 ∧
    (fallback_questions c r).all isStrVal = true ∧
    create_study_plan (.error e) days = fallback_study_plan days ∧
    dictGet (fallback_study_plan days) "duration".data = some (.pint days) ∧
    (match dictGet (fallback_study_plan days) "study_plan".data with
     | some (.pstr s) => s ≠ []
     | _ => False) := by
  refine ⟨rfl, ?_, rfl, rfl, rfl, rfl, rfl, ?_⟩
  · show ('I' :: _) ≠ []
    exact List.cons_ne_nil _ _
  · show ('S' :: _) ≠ []
    exact List.cons_ne_nil _ _

/-! ## Claim C10 (study-plan duration and fallback text). -/

/-- C10: `create_study_plan` returns `duration = days_to_prepare` on both
the success path and the fallback path, and the fallback `study_plan` text
is non-empty. -/
theorem c10_study_plan (o : Except Unit (List Char)) (days : Int) (e : Unit) :
    dictGet (create_study_plan o days) "duration".data = some (.pint days) ∧
    (match dictGet (create_study_plan (.error e) days) "study_plan".data with
     | some (.pstr s) => s ≠ []
     | _ => False) := by
  constructor
  · cases o <;> rfl
  · show ('S' :: _) ≠ []
    exact List.cons_ne_nil _ _
/-! ## Claim C6 (list-item extraction within a routed section). -/

/-- C6's counterexample: a line starting with the bullet `•` is *not*
extracted by the code (the qualification test only accepts `-` or a digit),
while the claim's extraction rule accepts it. -/
theorem c6_counterexample :
    sectionItems "• Use STAR method".data = [] ∧
    sectionItemsClaim "• Use STAR method".data = ["Use STAR method".data] ∧
    sectionItems "• Use STAR method".data ≠ sectionItemsClaim "• Use STAR method".data := by
  refine ⟨by rfl, by rfl, ?_⟩
  intro h
  exact absurd (h.trans (by rfl)) (List.cons_ne_nil _ _).symm

/-- C6 amended: within a section routed to a list field, exactly those
lines that after trimming start with `-` or a digit are extracted (`•`
does not qualify); each is transformed by stripping the characters
`-`, `•`, space, digits and `.` from *both* ends and then trimming
whitespace, and the results are appended to the field's list in source
order, duplicates retained, and nothing else is added. -/
theorem c6_amended (sec : List Char) :
    sectionItems sec = ((pySplitNl [] sec).filter lineQualifies).map lineItem ∧
    ∀ (parsed : PyDict) (prev : List Char) (xs : List PyVal),
      listFieldKeys.contains (routeSection prev sec) = true →
      dictGet parsed (routeSection prev sec) = some (.plist xs) →
      dictGet (stepSection (parsed, prev) sec).1 (routeSection prev sec)
        = some (.plist (xs ++ (sectionItems sec).map .pstr)) := by
  constructor
  · exact filterMap_guard lineQualifies lineItem (pySplitNl [] sec)
  · intro parsed prev xs hc hg
    show dictGet (stepSection (parsed, prev) sec).1 (routeSection prev sec)
      = some (.plist (xs ++ (sectionItems sec).map .pstr))
    unfold stepSection
    simp only [hc, if_true, hg]
    exact dictGet_pySetKey_self _ _ _

theorem c6_amended_witness :
    listFieldKeys.contains (routeSection "overview".data "tips\n- be calm".data) = true ∧
    dictGet initParsed (routeSection "overview".data "tips\n- be calm".data)
      = some (.plist []) ∧
    dictGet (stepSection (initParsed, "overview".data) "tips\n- be calm".data).1
        (routeSection "overview".data "tips\n- be calm".data)
      = some (.plist (([] : List PyVal) ++ (sectionItems "tips\n- be calm".data).map .pstr)) :=
  ⟨by rfl, by rfl,
   (c6_amended "tips\n- be calm".data).2 initParsed "overview".data [] (by rfl) (by rfl)⟩
/-! ## Claim C9 (a post-connection read failure looks like a cache miss). -/

/-- C9: once the store is connected, `get_company_data` swallows an
internal read failure and returns `None` — whether or not a matching entry
is stored — and `research_company` then takes the cache-miss path: it
re-runs the aggregation and schedules a fresh upsert of the scraped record,
so its observable outcome (response and scheduled background writes) is
identical to running against any connected store holding no matching
entry. -/
theorem c9_read_fault_is_miss (st : DBState) (req : ResearchRequest) (ai : AIOutcomes)
    (now : Nat) (hconn : st.connected = true) :
    get_company_data st true req.company_name (some req.role) = .ok none ∧
    research_company st true req ai now
      = .ok (assemble_response req ai (scrape_company_data req.company_name req.role)
          [BgTask.saveCompany (scrape_company_data req.company_name req.role)] now) ∧
    ∀ st2 : DBState, st2.connected = true →
      st2.company_interviews.find? (matchesQuery
        (("company_name".data, PyVal.pstr (pyLower req.company_name)) ::
          (if req.role.isEmpty then []
           else [("role".data, PyVal.pstr (pyLower req.role))]))) = none →
      research_company st true req ai now = research_company st2 false req ai now := by
  have hget_t : get_company_data st true req.company_name (some req.role) = .ok none := by
    simp [get_company_data, hconn]
  have hrun : research_company st true req ai now
      = .ok (assemble_response req ai (scrape_company_data req.company_name req.role)
          [BgTask.saveCompany (scrape_company_data req.company_name req.role)] now) := by
    unfold research_company
    rw [hget_t]
    rfl
  refine ⟨hget_t, hrun, ?_⟩
  intro st2 h2conn h2miss
  have hget_f : get_company_data st2 false req.company_name (some req.role) = .ok none := by
    unfold get_company_data
    rw [h2conn]
    dsimp only [Bool.not_true]
    rw [h2miss]
    rfl
  unfold research_company
  rw [hget_t, hget_f]

theorem c9_witness :
    (⟨true, [[("company_name".data, PyVal.pstr "google".data),
              ("role".data, PyVal.pstr "swe".data)]], []⟩ : DBState).connected = true ∧
    get_company_data
        ⟨true, [[("company_name".data, PyVal.pstr "google".data),
                 ("role".data, PyVal.pstr "swe".data)]], []⟩
        true "google".data (some "swe".data) = .ok none ∧
    (⟨true, [], []⟩ : DBState).connected = true ∧
    ([] : List PyDict).find? (matchesQuery
      (("company_name".data, PyVal.pstr (pyLower "google".data)) ::
        (if "swe".data.isEmpty then []
         else [("role".data, PyVal.pstr (pyLower "swe".data))]))) = none ∧
    research_company
        ⟨true, [[("company_name".data, PyVal.pstr "google".data),
                 ("role".data, PyVal.pstr "swe".data)]], []⟩
        true ⟨"google".data, "swe".data, "Mid-level".data, 30⟩
        ⟨.error (), .error (), .error ()⟩ 0
      = research_company ⟨true, [], []⟩ false
          ⟨"google".data, "swe".data, "Mid-level".data, 30⟩
          ⟨.error (), .error (), .error ()⟩ 0 :=
  ⟨rfl,
   (c9_read_fault_is_miss
      ⟨true, [[("company_name".data, PyVal.pstr "google".data),
               ("role".data, PyVal.pstr "swe".data)]], []⟩
      ⟨"google".data, "swe".data, "Mid-level".data, 30⟩
      ⟨.error (), .error (), .error ()⟩ 0 rfl).1,
   rfl, rfl,
   (c9_read_fault_is_miss
      ⟨true, [[("company_name".data, PyVal.pstr "google".data),
               ("role".data, PyVal.pstr "swe".data)]], []⟩
      ⟨"google".data, "swe".data, "Mid-level".data, 30⟩
      ⟨.error (), .error (), .error ()⟩ 0 rfl).2.2 ⟨true, [], []⟩ rfl rfl⟩

/-! ## Claim C1 (the normalizer's output shape and typing). -/

theorem all_isStrVal_map_pstr (l : List (List Char)) :
    (l.map PyVal.pstr).all isStrVal = true := by
  induction l with
  | nil => rfl
  | cons hd t ih => simp [isStrVal, ih]

theorem keysOf_six_shape : ∀ (d : PyDict), keysOf d = sixKeys →
    ∃ a b c e f g, d =
      [("overview".data, a), ("technical_areas".data, b), ("questions".data, c),
       ("strategy".data, e), ("timeline".data, f), ("tips".data, g)]
  | [(k1, a), (k2, b), (k3, c), (k4, e), (k5, f), (k6, g)], h => by
    simp only [keysOf, List.map_cons, List.map_nil, sixKeys, List.cons.injEq,
      and_true] at h
    obtain ⟨h1, h2, h3, h4, h5, h6⟩ := h
    exact ⟨a, b, c, e, f, g, by rw [h1, h2, h3, h4, h5, h6]⟩
  | [], h => by simp [keysOf, sixKeys] at h
  | [_], h => by simp [keysOf, sixKeys] at h
  | [_, _], h => by simp [keysOf, sixKeys] at h
  | [_, _, _], h => by simp [keysOf, sixKeys] at h
  | [_, _, _, _], h => by simp [keysOf, sixKeys] at h
  | [_, _, _, _, _], h => by simp [keysOf, sixKeys] at h
  | _ :: _ :: _ :: _ :: _ :: _ :: _ :: _, h => by simp [keysOf, sixKeys] at h

theorem routeSection_mem (cur sec : List Char) (hc : cur ∈ sixKeys) :
    routeSection cur sec ∈ sixKeys := by
  unfold routeSection
  dsimp only
  split_ifs <;> first | exact hc | decide

theorem stepSection_inv (parsed : PyDict) (cur sec : List Char)
    (hk : keysOf parsed = sixKeys) (ht : guideWellTyped parsed) (hc : cur ∈ sixKeys) :
    keysOf (stepSection (parsed, cur) sec).1 = sixKeys ∧
    guideWellTyped (stepSection (parsed, cur) sec).1 ∧
    (stepSection (parsed, cur) sec).2 ∈ sixKeys := by
  obtain ⟨a, b, c, e, f, g, rfl⟩ := keysOf_six_shape parsed hk
  obtain ⟨h1, h2, h3, h4, h5, h6⟩ := ht
  simp only [dictGet] at h1 h2 h3 h4 h5 h6
  have hm := routeSection_mem cur sec hc
  simp only [sixKeys, List.mem_cons, List.not_mem_nil, or_false] at hm
  unfold stepSection
  dsimp only
  rcases hm with hr | hr | hr | hr | hr | hr <;> rw [hr]
  · -- overview: scalar field, overwritten with the stripped section
    refine ⟨?_, ⟨rfl, h2, h3, h4, h5, h6⟩, ?_⟩
    · rfl
    · show ("overview".data : List Char) ∈ sixKeys
      decide
  · -- technical_areas: list field, extended
    cases b with
    | plist xs =>
      have h2a : xs.all isStrVal = true := by simpa [optIsStrList, isStrList] using h2
      refine ⟨?_, ⟨h1, ?_, h3, h4, h5, h6⟩, ?_⟩
      · rfl
      · show (xs ++ (sectionItems sec).map PyVal.pstr).all isStrVal = true
        rw [List.all_append, h2a, all_isStrVal_map_pstr]
        rfl
      · show ("technical_areas".data : List Char) ∈ sixKeys
        decide
    | pnone => simp [optIsStrList, isStrList] at h2
    | pbool b0 => simp [optIsStrList, isStrList] at h2
    | pint n0 => simp [optIsStrList, isStrList] at h2
    | pstr s0 => simp [optIsStrList, isStrList] at h2
    | pdict d0 => simp [optIsStrList, isStrList] at h2
    | ptime t0 => simp [optIsStrList, isStrList] at h2
  · -- questions: list field, extended
    cases c with
    | plist xs =>
      have h3a : xs.all isStrVal = true := by simpa [optIsStrList, isStrList] using h3
      refine ⟨?_, ⟨h1, h2, ?_, h4, h5, h6⟩, ?_⟩
      · rfl
      · show (xs ++ (sectionItems sec).map PyVal.pstr).all isStrVal = true
        rw [List.all_append, h3a, all_isStrVal_map_pstr]
        rfl
      · show ("questions".data : List Char) ∈ sixKeys
        decide
    | pnone => simp [optIsStrList, isStrList] at h3
    | pbool b0 => simp [optIsStrList, isStrList] at h3
    | pint n0 => simp [optIsStrList, isStrList] at h3
    | pstr s0 => simp [optIsStrList, isStrList] at h3
    | pdict d0 => simp [optIsStrList, isStrList] at h3
    | ptime t0 => simp [optIsStrList, isStrList] at h3
  · -- strategy: scalar field
    refine ⟨?_, ⟨h1, h2, h3, rfl, h5, h6⟩, ?_⟩
    · rfl
    · show ("strategy".data : List Char) ∈ sixKeys
      decide
  · -- timeline: scalar field
    refine ⟨?_, ⟨h1, h2, h3, h4, rfl, h6⟩, ?_⟩
    · rfl
    · show ("timeline".data : List Char) ∈ sixKeys
      decide
  · -- tips: list field, extended
    cases g with
    | plist xs =>
      have h6a : xs.all isStrVal = true := by simpa [optIsStrList, isStrList] using h6
      refine ⟨?_, ⟨h1, h2, h3, h4, h5, ?_⟩, ?_⟩
      · rfl
      · show (xs ++ (sectionItems sec).map PyVal.pstr).all isStrVal = true
        rw [List.all_append, h6a, all_isStrVal_map_pstr]
        rfl
      · show ("tips".data : List Char) ∈ sixKeys
        decide
    | pnone => simp [optIsStrList, isStrList] at h6
    | pbool b0 => simp [optIsStrList, isStrList] at h6
    | pint n0 => simp [optIsStrList, isStrList] at h6
    | pstr s0 => simp [optIsStrList, isStrList] at h6
    | pdict d0 => simp [optIsStrList, isStrList] at h6
    | ptime t0 => simp [optIsStrList, isStrList] at h6
theorem heuristic_inv (secs : List (List Char)) (parsed : PyDict) (cur : List Char)
    (hk : keysOf parsed = sixKeys) (ht : guideWellTyped parsed) (hc : cur ∈ sixKeys) :
    keysOf (secs.foldl stepSection (parsed, cur)).1 = sixKeys ∧
    guideWellTyped (secs.foldl stepSection (parsed, cur)).1 := by
  induction secs generalizing parsed cur with
  | nil => exact ⟨hk, ht⟩
  | cons s t ih =>
    obtain ⟨h1, h2, h3⟩ := stepSection_inv parsed cur s hk ht hc
    have hstep := ih (stepSection (parsed, cur) s).1 (stepSection (parsed, cur) s).2 h1 h2 h3
    simpa [List.foldl_cons, Prod.mk.eta] using hstep

theorem okField_str (data : PyDict) (k s : List Char)
    (h : okFieldType data k false = true) :
    optIsStr (some (dictGetD data k (.pstr s))) = true := by
  unfold okFieldType at h
  unfold dictGetD
  cases hd : dictGet data k with
  | none => rfl
  | some v =>
    rw [hd] at h
    simpa [optIsStr] using h

theorem okField_list (data : PyDict) (k : List Char)
    (h : okFieldType data k true = true) :
    optIsStrList (some (dictGetD data k (.plist []))) = true := by
  unfold okFieldType at h
  unfold dictGetD
  cases hd : dictGet data k with
  | none => rfl
  | some v =>
    rw [hd] at h
    simpa [optIsStrList] using h

/-- C1's counterexample: the JSON tier passes field values through without
type enforcement, so `normalize('\x7b"overview": 3\x7d')` returns a record
whose `overview` is the integer `3`, not a string. -/
theorem c1_counterexample :
    dictGet (parse_ai_response "\x7b\"overview\": 3\x7d".data) "overview".data
      = some (.pint 3) := by rfl

/-- C1 amended: for every input the normalizer terminates and returns a
record with exactly the six guide keys; the values are correctly typed
whenever the input is not a JSON object, or is a JSON object whose six
guide keys, where present, already have the specified types (a JSON
object's present values are passed through as-is). -/
theorem c1_amended (s : List Char) :
    keysOf (parse_ai_response s) = sixKeys ∧
    (jsonTierTyped s → guideWellTyped (parse_ai_response s)) := by
  have hheu : keysOf (heuristicParse s) = sixKeys ∧ guideWellTyped (heuristicParse s) :=
    heuristic_inv (pySplitPara [] s) initParsed "overview".data rfl
      ⟨rfl, rfl, rfl, rfl, rfl, rfl⟩ (by decide)
  unfold parse_ai_response jsonTierTyped
  cases hj : jLoads s with
  | none => exact ⟨hheu.1, fun _ => hheu.2⟩
  | some v =>
    cases v with
    | pdict data =>
      refine ⟨rfl, fun hty => ?_⟩
      obtain ⟨t1, t2, t3, t4, t5, t6⟩ := hty
      exact ⟨okField_str data _ _ t1, okField_list data _ t2, okField_list data _ t3,
        okField_str data _ _ t4, okField_str data _ _ t5, okField_list data _ t6⟩
    | pnone => exact ⟨hheu.1, fun _ => hheu.2⟩
    | pbool b => exact ⟨hheu.1, fun _ => hheu.2⟩
    | pint n => exact ⟨hheu.1, fun _ => hheu.2⟩
    | pstr s2 => exact ⟨hheu.1, fun _ => hheu.2⟩
    | plist xs => exact ⟨hheu.1, fun _ => hheu.2⟩
    | ptime t => exact ⟨hheu.1, fun _ => hheu.2⟩

theorem c1_amended_witness :
    jsonTierTyped "hello".data ∧
    keysOf (parse_ai_response "hello".data) = sixKeys ∧
    guideWellTyped (parse_ai_response "hello".data) :=
  ⟨by exact True.intro, (c1_amended "hello".data).1,
   (c1_amended "hello".data).2 (by exact True.intro)⟩
/-! ## Claim C7 (round-trip through the strict structured format). -/

theorem jHexVal_jHexDigit : ∀ n : Nat, n < 16 → jHexVal (jHexDigit n) = some n := by
  decide

theorem jStr_jEsc (c : Char) (acc rest : List Char) :
    jStr acc (jEsc c ++ rest) = jStr (c :: acc) rest := by
  unfold jEsc
  split_ifs with h1 h2 h3 h4 h5 h6
  · subst h1; rfl
  · subst h2; rfl
  · subst h3; rfl
  · subst h4; rfl
  · subst h5; rfl
  · have hd1 : jHexVal (jHexDigit (c.toNat / 16)) = some (c.toNat / 16) :=
      jHexVal_jHexDigit _ (by omega)
    have hd2 : jHexVal (jHexDigit (c.toNat % 16)) = some (c.toNat % 16) :=
      jHexVal_jHexDigit _ (by omega)
    show jStr acc ('\\' :: 'u' :: '0' :: '0' ::
        jHexDigit (c.toNat / 16) :: jHexDigit (c.toNat % 16) :: rest) = jStr (c :: acc) rest
    have hstep : jStr acc ('\\' :: 'u' :: '0' :: '0' ::
        jHexDigit (c.toNat / 16) :: jHexDigit (c.toNat % 16) :: rest)
        = (match jHexVal '0', jHexVal '0', jHexVal (jHexDigit (c.toNat / 16)),
              jHexVal (jHexDigit (c.toNat % 16)) with
           | some va, some vb, some vc, some vd =>
             jStr (Char.ofNat (((va * 16 + vb) * 16 + vc) * 16 + vd) :: acc) rest
           | _, _, _, _ => none) := rfl
    rw [hstep, hd1, hd2]
    show jStr (Char.ofNat (((0 * 16 + 0) * 16 + c.toNat / 16) * 16 + c.toNat % 16) :: acc)
        rest = jStr (c :: acc) rest
    rw [show ((0 * 16 + 0) * 16 + c.toNat / 16) * 16 + c.toNat % 16 = c.toNat by omega,
      Char.ofNat_toNat]
  · show jStr acc (c :: rest) = jStr (c :: acc) rest
    rw [jStr.eq_def]
    dsimp only
    rw [if_neg h1, if_neg h2, if_neg h6]

theorem jStr_quote (s : List Char) : ∀ (acc r : List Char),
    jStr acc (s.flatMap jEsc ++ '"' :: r) = some (acc.reverse ++ s, r) := by
  induction s with
  | nil =>
    intro acc r
    show jStr acc ('"' :: r) = some (acc.reverse ++ [], r)
    rw [List.append_nil, jStr.eq_def]
    dsimp only
    rw [if_pos rfl]
  | cons c t ih =>
    intro acc r
    rw [List.flatMap_cons, List.append_assoc, jStr_jEsc, ih]
    simp

theorem jVal_quote (n : Nat) (s r : List Char) :
    jVal (n + 1) (jQuote s ++ r) = some (.pstr s, r) := by
  have harg : jQuote s ++ r = '"' :: (s.flatMap jEsc ++ '"' :: r) := by
    simp [jQuote]
  rw [harg]
  show (match jStr [] (s.flatMap jEsc ++ '"' :: r) with
        | some (s2, r2) => some (PyVal.pstr s2, r2)
        | none => none) = some (.pstr s, r)
  rw [jStr_quote]
  show some (PyVal.pstr ([].reverse ++ s), r) = some (.pstr s, r)
  rw [List.reverse_nil, List.nil_append]
theorem jSkip_cons (c : Char) (x : List Char) (h : jWs c = false) :
    jSkip (c :: x) = c :: x := by
  simp [jSkip, List.dropWhile_cons, h]

theorem jItems_quote : ∀ (l : List (List Char)) (s : List Char) (acc : List PyVal)
    (r : List Char) (n : Nat), l.length + 2 ≤ n →
    jItems n (jQuote s ++ (jArrSep l ++ r)) acc
      = some (.plist (acc ++ (s :: l).map .pstr), r) := by
  intro l
  induction l with
  | nil =>
    intro s acc r n hn
    obtain ⟨m, rfl⟩ : ∃ m, n = m + 2 := ⟨n - 2, by omega⟩
    have harg : jQuote s ++ (jArrSep [] ++ r) = jQuote s ++ (']' :: r) := rfl
    rw [harg]
    show (match jVal (m + 1) (jQuote s ++ (']' :: r)) with
          | none => none
          | some (v, r2) =>
            match jSkip r2 with
            | ',' :: r' => jItems (m + 1) r' (acc ++ [v])
            | ']' :: r' => some (PyVal.plist (acc ++ [v]), r')
            | _ => none)
        = some (.plist (acc ++ (s :: ([] : List (List Char))).map .pstr), r)
    rw [jVal_quote]
    show (match jSkip (']' :: r) with
          | ',' :: r' => jItems (m + 1) r' (acc ++ [PyVal.pstr s])
          | ']' :: r' => some (PyVal.plist (acc ++ [PyVal.pstr s]), r')
          | _ => none)
        = some (.plist (acc ++ (s :: ([] : List (List Char))).map .pstr), r)
    rw [jSkip_cons ']' r rfl]
    rfl
  | cons s2 t ih =>
    intro s acc r n hn
    obtain ⟨m, rfl⟩ : ∃ m, n = m + 2 := ⟨n - 2, by omega⟩
    have harg : jQuote s ++ (jArrSep (s2 :: t) ++ r)
        = jQuote s ++ (',' :: (jQuote s2 ++ (jArrSep t ++ r))) := by
      show jQuote s ++ ((',' :: (jQuote s2 ++ jArrSep t)) ++ r) = _
      rw [List.cons_append, List.append_assoc]
    rw [harg]
    show (match jVal (m + 1) (jQuote s ++ (',' :: (jQuote s2 ++ (jArrSep t ++ r)))) with
          | none => none
          | some (v, r2) =>
            match jSkip r2 with
            | ',' :: r' => jItems (m + 1) r' (acc ++ [v])
            | ']' :: r' => some (PyVal.plist (acc ++ [v]), r')
            | _ => none)
        = some (.plist (acc ++ (s :: s2 :: t).map .pstr), r)
    rw [jVal_quote]
    show (match jSkip (',' :: (jQuote s2 ++ (jArrSep t ++ r))) with
          | ',' :: r' => jItems (m + 1) r' (acc ++ [PyVal.pstr s])
          | ']' :: r' => some (PyVal.plist (acc ++ [PyVal.pstr s]), r')
          | _ => none)
        = some (.plist (acc ++ (s :: s2 :: t).map .pstr), r)
    rw [jSkip_cons ',' (jQuote s2 ++ (jArrSep t ++ r)) rfl]
    show jItems (m + 1) (jQuote s2 ++ (jArrSep t ++ r)) (acc ++ [PyVal.pstr s])
        = some (.plist (acc ++ (s :: s2 :: t).map .pstr), r)
    simp only [List.length_cons] at hn
    rw [ih s2 (acc ++ [PyVal.pstr s]) r (m + 1) (by omega)]
    simp

theorem jVal_arr (l : List (List Char)) (r : List Char) (n : Nat)
    (h : l.length + 3 ≤ n) :
    jVal n (jArrPrint l ++ r) = some (.plist (l.map .pstr), r) := by
  obtain ⟨m, rfl⟩ : ∃ m, n = m + 1 := ⟨n - 1, by omega⟩
  cases l with
  | nil =>
    show jVal (m + 1) ('[' :: (']' :: r)) = some (.plist [], r)
    rfl
  | cons s t =>
    have harg : jArrPrint (s :: t) ++ r = '[' :: (jQuote s ++ (jArrSep t ++ r)) := by
      show ('[' :: (jQuote s ++ jArrSep t)) ++ r = _
      rw [List.cons_append, List.append_assoc]
    rw [harg]
    have hhead : ∃ c x, jQuote s ++ (jArrSep t ++ r) = '"' :: x ∧ c = '"' :=
      ⟨'"', s.flatMap jEsc ++ '"' :: [] ++ (jArrSep t ++ r), by simp [jQuote], rfl⟩
    obtain ⟨hd, x, hx, -⟩ := hhead
    show (match jSkip (jQuote s ++ (jArrSep t ++ r)) with
          | ']' :: r' => some (PyVal.plist [], r')
          | r' => jItems m r' []
          ) = some (.plist ((s :: t).map .pstr), r)
    rw [hx, jSkip_cons '"' x rfl]
    show jItems m ('"' :: x) [] = some (.plist ((s :: t).map .pstr), r)
    simp only [List.length_cons] at h
    rw [← hx, jItems_quote t s [] r m (by omega)]
    simp
theorem jVal_field (f : JField) (r : List Char) (n : Nat) (h : jFieldFuel f ≤ n) :
    jVal n (jFieldPrint f ++ r) = some (jFieldVal f, r) := by
  cases f with
  | fstr s =>
    obtain ⟨m, rfl⟩ : ∃ m, n = m + 1 := ⟨n - 1, by simp [jFieldFuel] at h; omega⟩
    exact jVal_quote m s r
  | farr l =>
    exact jVal_arr l r n (by simpa [jFieldFuel] using h)

theorem jPairs_members : ∀ (ms : List (List Char × JField)) (k : List Char) (f : JField)
    (acc : PyDict) (r : List Char) (n : Nat),
    jFieldFuel f + 1 + jMembersFuel ms ≤ n →
    jPairs n (jQuote k ++ (':' :: (jFieldPrint f ++ (jMembersSep ms ++ r)))) acc
      = some (.pdict (pyDictOfPairs (acc ++ ((k, f) :: ms).map
          (fun p => (p.1, jFieldVal p.2)))), r) := by
  intro ms
  induction ms with
  | nil =>
    intro k f acc r n hn
    obtain ⟨m, rfl⟩ : ∃ m, n = m + 1 := ⟨n - 1, by omega⟩
    have harg : jQuote k ++ (':' :: (jFieldPrint f ++ (jMembersSep [] ++ r)))
        = '"' :: (k.flatMap jEsc ++ '"' ::
            (':' :: (jFieldPrint f ++ ('\x7d' :: r)))) := by
      simp [jQuote, jMembersSep]
    rw [harg]
    show (match jStr [] (k.flatMap jEsc ++ '"' ::
            (':' :: (jFieldPrint f ++ ('\x7d' :: r)))) with
          | none => none
          | some (k1, r1) =>
            match jSkip r1 with
            | ':' :: r2 =>
              match jVal m r2 with
              | none => none
              | some (v, r3) =>
                match jSkip r3 with
                | ',' :: r4 => jPairs m r4 (acc ++ [(k1, v)])
                | '\x7d' :: r4 => some (.pdict (pyDictOfPairs (acc ++ [(k1, v)])), r4)
                | _ => none
            | _ => none)
        = some (.pdict (pyDictOfPairs (acc ++ [(k, jFieldVal f)])), r)
    rw [jStr_quote]
    show (match jSkip (':' :: (jFieldPrint f ++ ('\x7d' :: r))) with
          | ':' :: r2 =>
            match jVal m r2 with
            | none => none
            | some (v, r3) =>
              match jSkip r3 with
              | ',' :: r4 => jPairs m r4 (acc ++ [([].reverse ++ k, v)])
              | '\x7d' :: r4 =>
                some (.pdict (pyDictOfPairs (acc ++ [([].reverse ++ k, v)])), r4)
              | _ => none
          | _ => none)
        = some (.pdict (pyDictOfPairs (acc ++ [(k, jFieldVal f)])), r)
    rw [jSkip_cons ':' (jFieldPrint f ++ ('\x7d' :: r)) rfl]
    show (match jVal m (jFieldPrint f ++ ('\x7d' :: r)) with
          | none => none
          | some (v, r3) =>
            match jSkip r3 with
            | ',' :: r4 => jPairs m r4 (acc ++ [([].reverse ++ k, v)])
            | '\x7d' :: r4 =>
              some (.pdict (pyDictOfPairs (acc ++ [([].reverse ++ k, v)])), r4)
            | _ => none)
        = some (.pdict (pyDictOfPairs (acc ++ [(k, jFieldVal f)])), r)
    rw [jVal_field f ('\x7d' :: r) m (by omega)]
    show (match jSkip ('\x7d' :: r) with
          | ',' :: r4 => jPairs m r4 (acc ++ [([].reverse ++ k, jFieldVal f)])
          | '\x7d' :: r4 =>
            some (.pdict (pyDictOfPairs (acc ++ [([].reverse ++ k, jFieldVal f)])), r4)
          | _ => none)
        = some (.pdict (pyDictOfPairs (acc ++ [(k, jFieldVal f)])), r)
    rw [jSkip_cons '\x7d' r rfl]
    rfl
  | cons p t ih =>
    obtain ⟨k2, f2⟩ := p
    intro k f acc r n hn
    simp only [jMembersFuel] at hn
    obtain ⟨m, rfl⟩ : ∃ m, n = m + 1 := ⟨n - 1, by omega⟩
    have harg : jQuote k ++ (':' :: (jFieldPrint f ++ (jMembersSep ((k2, f2) :: t) ++ r)))
        = '"' :: (k.flatMap jEsc ++ '"' :: (':' :: (jFieldPrint f ++
            (',' :: (jQuote k2 ++ (':' :: (jFieldPrint f2 ++ (jMembersSep t ++ r)))))))) := by
      simp [jQuote, jMembersSep]
    rw [harg]
    show (match jStr [] (k.flatMap jEsc ++ '"' :: (':' :: (jFieldPrint f ++
            (',' :: (jQuote k2 ++ (':' :: (jFieldPrint f2 ++ (jMembersSep t ++ r)))))))) with
          | none => none
          | some (k1, r1) =>
            match jSkip r1 with
            | ':' :: r2 =>
              match jVal m r2 with
              | none => none
              | some (v, r3) =>
                match jSkip r3 with
                | ',' :: r4 => jPairs m r4 (acc ++ [(k1, v)])
                | '\x7d' :: r4 => some (.pdict (pyDictOfPairs (acc ++ [(k1, v)])), r4)
                | _ => none
            | _ => none)
        = some (.pdict (pyDictOfPairs (acc ++ ((k, f) :: (k2, f2) :: t).map
            (fun p => (p.1, jFieldVal p.2)))), r)
    rw [jStr_quote]
    show (match jSkip (':' :: (jFieldPrint f ++
            (',' :: (jQuote k2 ++ (':' :: (jFieldPrint f2 ++ (jMembersSep t ++ r))))))) with
          | ':' :: r2 =>
            match jVal m r2 with
            | none => none
            | some (v, r3) =>
              match jSkip r3 with
              | ',' :: r4 => jPairs m r4 (acc ++ [([].reverse ++ k, v)])
              | '\x7d' :: r4 =>
                some (.pdict (pyDictOfPairs (acc ++ [([].reverse ++ k, v)])), r4)
              | _ => none
          | _ => none)
        = some (.pdict (pyDictOfPairs (acc ++ ((k, f) :: (k2, f2) :: t).map
            (fun p => (p.1, jFieldVal p.2)))), r)
    rw [jSkip_cons ':' _ rfl]
    show (match jVal m (jFieldPrint f ++
            (',' :: (jQuote k2 ++ (':' :: (jFieldPrint f2 ++ (jMembersSep t ++ r)))))) with
          | none => none
          | some (v, r3) =>
            match jSkip r3 with
            | ',' :: r4 => jPairs m r4 (acc ++ [([].reverse ++ k, v)])
            | '\x7d' :: r4 =>
              some (.pdict (pyDictOfPairs (acc ++ [([].reverse ++ k, v)])), r4)
            | _ => none)
        = some (.pdict (pyDictOfPairs (acc ++ ((k, f) :: (k2, f2) :: t).map
            (fun p => (p.1, jFieldVal p.2)))), r)
    rw [jVal_field f _ m (by omega)]
    show (match jSkip (',' :: (jQuote k2 ++ (':' :: (jFieldPrint f2 ++
            (jMembersSep t ++ r))))) with
          | ',' :: r4 => jPairs m r4 (acc ++ [([].reverse ++ k, jFieldVal f)])
          | '\x7d' :: r4 =>
            some (.pdict (pyDictOfPairs (acc ++ [([].reverse ++ k, jFieldVal f)])), r4)
          | _ => none)
        = some (.pdict (pyDictOfPairs (acc ++ ((k, f) :: (k2, f2) :: t).map
            (fun p => (p.1, jFieldVal p.2)))), r)
    rw [jSkip_cons ',' _ rfl]
    show jPairs m (jQuote k2 ++ (':' :: (jFieldPrint f2 ++ (jMembersSep t ++ r))))
          (acc ++ [([].reverse ++ k, jFieldVal f)])
        = some (.pdict (pyDictOfPairs (acc ++ ((k, f) :: (k2, f2) :: t).map
            (fun p => (p.1, jFieldVal p.2)))), r)
    rw [ih k2 f2 (acc ++ [([].reverse ++ k, jFieldVal f)]) r m (by omega)]
    simp

theorem jVal_obj (ms : List (List Char × JField)) (r : List Char) (n : Nat)
    (h : jMembersFuel ms + 2 ≤ n) :
    jVal n (jObjPrint ms ++ r)
      = some (.pdict (pyDictOfPairs (ms.map (fun p => (p.1, jFieldVal p.2)))), r) := by
  obtain ⟨m, rfl⟩ : ∃ m, n = m + 1 := ⟨n - 1, by omega⟩
  cases ms with
  | nil =>
    show jVal (m + 1) ('\x7b' :: ('\x7d' :: r)) = some (.pdict [], r)
    rfl
  | cons p t =>
    obtain ⟨k, f⟩ := p
    simp only [jMembersFuel] at h
    have harg : jObjPrint ((k, f) :: t) ++ r
        = '\x7b' :: (jQuote k ++ (':' :: (jFieldPrint f ++ (jMembersSep t ++ r)))) := by
      show ('\x7b' :: (jQuote k ++ ':' :: (jFieldPrint f ++ jMembersSep t))) ++ r = _
      simp
    rw [harg]
    have hq : jQuote k ++ (':' :: (jFieldPrint f ++ (jMembersSep t ++ r)))
        = '"' :: (k.flatMap jEsc ++ ('"' :: (':' :: (jFieldPrint f ++ (jMembersSep t ++ r))))) := by
      simp [jQuote]
    show (match jSkip (jQuote k ++ (':' :: (jFieldPrint f ++ (jMembersSep t ++ r)))) with
          | '\x7d' :: r' => some (PyVal.pdict [], r')
          | r' => jPairs m r' []
          ) = some (.pdict (pyDictOfPairs (((k, f) :: t).map
            (fun p => (p.1, jFieldVal p.2)))), r)
    rw [hq, jSkip_cons '"' _ rfl, ← hq]
    show jPairs m (jQuote k ++ (':' :: (jFieldPrint f ++ (jMembersSep t ++ r)))) []
        = some (.pdict (pyDictOfPairs (((k, f) :: t).map
            (fun p => (p.1, jFieldVal p.2)))), r)
    rw [jPairs_members t k f [] r m (by omega)]
    simp
theorem jQuote_len (s : List Char) : 2 ≤ (jQuote s).length := by
  simp [jQuote]

theorem jArrSep_len (l : List (List Char)) : l.length + 1 ≤ (jArrSep l).length := by
  induction l with
  | nil => simp [jArrSep]
  | cons s t ih =>
    have := jQuote_len s
    simp only [jArrSep, List.length_cons, List.length_append]
    omega

theorem jArrPrint_len (l : List (List Char)) : l.length + 2 ≤ (jArrPrint l).length := by
  cases l with
  | nil => simp [jArrPrint]
  | cons s t =>
    have h1 := jQuote_len s
    have h2 := jArrSep_len t
    simp only [jArrPrint, List.length_cons, List.length_append]
    omega

theorem jFieldFuel_le (f : JField) : jFieldFuel f ≤ (jFieldPrint f).length + 1 := by
  cases f with
  | fstr s =>
    have := jQuote_len s
    simp only [jFieldFuel, jFieldPrint]
    omega
  | farr l =>
    have := jArrPrint_len l
    simp only [jFieldFuel, jFieldPrint]
    omega

theorem jMembersFuel_le (ms : List (List Char × JField)) :
    jMembersFuel ms ≤ (jMembersSep ms).length := by
  induction ms with
  | nil => simp [jMembersFuel, jMembersSep]
  | cons p t ih =>
    obtain ⟨k, f⟩ := p
    have h1 := jQuote_len k
    have h2 := jFieldFuel_le f
    simp only [jMembersFuel, jMembersSep, List.length_cons, List.length_append]
    omega

theorem jObjPrint_fuel (ms : List (List Char × JField)) :
    jMembersFuel ms + 2 ≤ 2 * (jObjPrint ms).length + 2 := by
  cases ms with
  | nil => simp [jMembersFuel, jObjPrint]
  | cons p t =>
    obtain ⟨k, f⟩ := p
    have h1 := jQuote_len k
    have h2 := jFieldFuel_le f
    have h3 := jMembersFuel_le t
    simp only [jMembersFuel, jObjPrint, List.length_cons, List.length_append]
    omega

theorem jLoads_serialize (g : SynthesizedGuide) :
    jLoads (serializeGuide g)
      = some (.pdict (pyDictOfPairs ((guideFields g).map
          (fun p => (p.1, jFieldVal p.2))))) := by
  unfold jLoads serializeGuide
  have hfuel := jObjPrint_fuel (guideFields g)
  have h := jVal_obj (guideFields g) [] (2 * (jObjPrint (guideFields g)).length + 2) hfuel
  rw [List.append_nil] at h
  rw [h]
  rfl

/-- C7: normalizing the strict structured-format serialization of a
well-formed guide returns exactly that guide's dictionary. -/
theorem c7_roundtrip (g : SynthesizedGuide) :
    parse_ai_response (serializeGuide g) = guideDict g := by
  unfold parse_ai_response
  rw [jLoads_serialize]
  rfl
